import Mathlib

/-
Verification of the Rakshak AI decision backend and its companion platform
simulator (gig_worker_app/backend/app.py, zomato_simulator/backend/utils.py
and app.py).

The Python values flowing through the decision backend are JSON-like
dictionaries; they are embedded as `JVal` / `PyDict` below.  Numbers are
modelled as rationals (ints and the floats produced by `float(...)`;
none of the verified properties depends on binary floating-point rounding).
Transcript text is a list of characters (`Str`), so that Python's
substring tests (`kw in t`), `str.lower`, `str.strip` and
`str.startswith` are executable functions of the model.  Python code that
can raise an uncaught exception on malformed records (attribute errors on
non-dict values) is embedded in the `Except Unit` monad: `.error ()` is an
uncaught exception, which FastAPI would surface as a 500 with no response
body.
-/

namespace Rakshak

/-- JSON-like Python values: None, bool, numbers (int/float as rationals),
str, list, dict (association list preserving insertion order). -/
inductive JVal where
  | null : JVal
  | boolv : Bool → JVal
  | num : Rat → JVal
  | str : String → JVal
  | arr : List JVal → JVal
  | obj : List (String × JVal) → JVal

/-- A Python dict with string keys, in insertion order. -/
abbrev PyDict := List (String × JVal)

/-- First binding of a key (Python dicts have unique keys; the model reads
the first). `none` is a missing key. -/
def dLookup : PyDict → String → Option JVal
  | [], _ => none
  | (k', v) :: rest, k => if k' = k then some v else dLookup rest k

/-- Python `d.get(k)`: the value, or None when the key is absent. -/
def dGet (d : PyDict) (k : String) : JVal :=
  (dLookup d k).getD JVal.null

/-- Python `d.get(k, dflt)`. -/
def dGetD (d : PyDict) (k : String) (dflt : JVal) : JVal :=
  (dLookup d k).getD dflt

/-- Python `k in d` for a dict. -/
def hasKey (d : PyDict) (k : String) : Bool :=
  (dLookup d k).isSome

/-- Python `d[k] = v`: replace in place, or append a new binding. -/
def dSet : PyDict → String → JVal → PyDict
  | [], k, v => [(k, v)]
  | (k', v') :: rest, k, v =>
      if k' = k then (k, v) :: rest else (k', v') :: dSet rest k v

/-- Python `d.setdefault(k, v)` (the dict after the call). -/
def dSetdefault (d : PyDict) (k : String) (v : JVal) : PyDict :=
  if hasKey d k then d else d ++ [(k, v)]

/-- Python truthiness of a value. -/
def pyTruthy : JVal → Bool
  | .null => false
  | .boolv b => b
  | .num q => decide (q ≠ 0)
  | .str s => decide (s ≠ "")
  | .arr xs => !xs.isEmpty
  | .obj fs => !fs.isEmpty

/-- Truncation toward zero, as Python `int()` applied to a float. -/
def ratTrunc (q : Rat) : Int :=
  if 0 ≤ q then ⌊q⌋ else ⌈q⌉

/-- Python `int(v)`: bools become 0/1, numbers truncate toward zero,
integer-literal strings parse; anything else raises (`none`). -/
def pyToInt : JVal → Option Int
  | .boolv b => some (if b then 1 else 0)
  | .num q => some (ratTrunc q)
  | .str s => s.trim.toInt?
  | _ => none

/-- Decimal-string parser for Python `float(...)` on str arguments:
optional sign, then digits with an optional fractional part (scientific
notation and inf/nan, which no payload of the verified properties uses,
parse to `none`). -/
def parseFloatStr (s : String) : Option Rat :=
  let cs := s.trim.toList
  let body := match cs with
    | '-' :: rest => some (true, rest)
    | '+' :: rest => some (false, rest)
    | rest => some (false, rest)
  match body with
  | some (neg, rest) =>
      let ip := rest.takeWhile Char.isDigit
      let rest2 := rest.drop ip.length
      let parsed : Option Rat :=
        match rest2 with
        | [] =>
            if ip.isEmpty then none
            else some ((ip.foldl (fun a c => a * 10 + (c.toNat - 48)) 0 : Nat) : Rat)
        | '.' :: fr =>
            let fp := fr.takeWhile Char.isDigit
            if fr.drop fp.length ≠ [] then none
            else if ip.isEmpty ∧ fp.isEmpty then none
            else
              some (((ip.foldl (fun a c => a * 10 + (c.toNat - 48)) 0 : Nat) : Rat)
                + ((fp.foldl (fun a c => a * 10 + (c.toNat - 48)) 0 : Nat) : Rat)
                  / ((10 : Rat) ^ fp.length))
        | _ => none
      match parsed with
      | some q => some (if neg then -q else q)
      | none => none
  | none => none

/-- Python `float(v)`: numbers pass through, bools become 0/1, strings
parse; anything else raises (`none`). -/
def pyFloat : JVal → Option Rat
  | .num q => some q
  | .boolv b => some (if b then 1 else 0)
  | .str s => parseFloatStr s
  | _ => none

/-- Transcript text: a Python str as its character list. -/
abbrev Str := List Char

/-- Python `s.lower()` (ASCII case mapping; every keyword the code
matches against is ASCII). -/
def lowerStr (s : Str) : Str := s.map Char.toLower

/-- Python `needle in hay` on strings: some suffix of `hay` starts with
`needle`. -/
def strContains (hay needle : Str) : Bool :=
  hay.tails.any (fun suf => needle.isPrefixOf suf)

/-- Python `s.strip()`. -/
def stripStr (s : Str) : Str :=
  ((s.dropWhile Char.isWhitespace).reverse.dropWhile Char.isWhitespace).reverse

/-- The keyword set of `transcript_mentions_termination`. -/
def termKeywords : List Str :=
  ([ "terminate", "terminated", "suspend", "suspended", "deactivated",
     "blocked", "banned" ]).map String.toList

/-- app.py `transcript_mentions_termination`. -/
def transcript_mentions_termination (text : Option Str) : Bool :=
  let t := lowerStr (text.getD [])
  termKeywords.any (fun k => strContains t k)

/-- The keyword set of `transcript_mentions_payout_or_paid` (the
"paid â‚¹" entry reproduces the source file's literal bytes). -/
def payoutKeywords : List Str :=
  ([ "payout", "paid", "not paid", "unpaid", "payment", "paid â‚¹",
     "paid rs", "rupees", "rs." ]).map String.toList

/-- app.py `transcript_mentions_payout_or_paid`. -/
def transcript_mentions_payout_or_paid (text : Option Str) : Bool :=
  let t := lowerStr (text.getD [])
  payoutKeywords.any (fun k => strContains t k)

/-- The keyword set of `transcript_mentions_rating_or_algo`. -/
def ratingKeywords : List Str :=
  ([ "rating", "algo", "algorithm", "penalty", "deduct", "deduction" ]).map
    String.toList

/-- app.py `transcript_mentions_rating_or_algo`. -/
def transcript_mentions_rating_or_algo (text : Option Str) : Bool :=
  let t := lowerStr (text.getD [])
  ratingKeywords.any (fun k => strContains t k)

/-- Character class of the regex lookarounds: a digit or a dot. -/
def isDigitDot (c : Char) : Bool := c.isDigit || c == '.'

/-- The negative lookahead of the amount regex holds at this point. -/
def lookaheadOk : Str → Bool
  | [] => true
  | c :: _ => !isDigitDot c

/-- After the integer digits `ds`, try the optional fraction group of
the regex greedily (two fraction digits, then one, then none), each
attempt gated by the lookahead; `rest` is the input after `ds`. -/
def tryFrac (ds : Str) (rest : Str) : Option Str :=
  match rest with
  | '.' :: r =>
      let fr := r.takeWhile Char.isDigit
      (if 2 ≤ fr.length ∧ lookaheadOk (r.drop 2) then some (ds ++ '.' :: fr.take 2)
       else none) <|>
      (if 1 ≤ fr.length ∧ lookaheadOk (r.drop 1) then some (ds ++ '.' :: fr.take 1)
       else none) <|>
      (if lookaheadOk rest then some ds else none)
  | _ => if lookaheadOk rest then some ds else none

/-- Backtrack the greedy `\d{1,6}` from `k` digits down to one, trying
the fraction group at each width. `rest` begins with at least `k`
digits when the caller passes the run length. -/
def tryDigits (rest : Str) : Nat → Option Str
  | 0 => none
  | k + 1 => tryFrac (rest.take (k + 1)) (rest.drop (k + 1)) <|> tryDigits rest k

/-- One anchor position of the regex engine: greedy digits then the
optional fraction, under the lookahead. -/
def tryPos (rest : Str) : Option Str :=
  tryDigits rest (min 6 (rest.takeWhile Char.isDigit).length)

/-- The negative lookbehind: the previous character (if any) is not a
digit or a dot. -/
def behindOk : Option Char → Bool
  | none => true
  | some c => !isDigitDot c

/-- Leftmost match of the amount regex: positions tried left to right,
each anchored attempt guarded by the lookbehind. -/
def searchNum (prev : Option Char) : Str → Option Str
  | [] => none
  | c :: r =>
      match (if behindOk prev then tryPos (c :: r) else none) with
      | some g => some g
      | none => searchNum (some c) r

/-- Value of a list of decimal digit characters. -/
def digitsToNat (ds : Str) : Nat :=
  ds.foldl (fun a c => a * 10 + (c.toNat - 48)) 0

/-- Numeric value of a matched group (digits, optionally a dot and
fraction digits), i.e. `float(m.group(1))`. -/
def groupToRat (g : Str) : Rat :=
  let ip := g.takeWhile Char.isDigit
  match g.drop ip.length with
  | '.' :: fr => ((digitsToNat ip : Nat) : Rat) + ((digitsToNat fr : Nat) : Rat) / ((10 : Rat) ^ fr.length)
  | _ => ((digitsToNat ip : Nat) : Rat)

/-- app.py `extract_number_from_text`: first match of
`(?<![\d.])(\d{1,6}(?:\.\d{1,2})?)(?![\d.])` in `text or ""`, parsed as a
float (the parse of a matched group never fails, so the function's
try/except is inert). -/
def extract_number_from_text (text : Option Str) : Option Rat :=
  (searchNum none (text.getD [])).map groupToRat

/-- The `term` computed by `check_discrepancy`:
`worker_db.get("termination_status") or worker_db.get("terminationStatus") or {}`. -/
def termChain (db : PyDict) : JVal :=
  let t1 := dGet db "termination_status"
  if pyTruthy t1 then t1
  else
    let t2 := dGet db "terminationStatus"
    if pyTruthy t2 then t2 else .obj []

/-- The `is_terminated` local of `check_discrepancy`: present and an
`int(...)`-convertible value, else None (the bare `except` swallows the
conversion error). -/
def isTerminatedVal (db : PyDict) : Option Int :=
  match termChain db with
  | .obj fs =>
      match dLookup fs "is_terminated" with
      | some v => pyToInt v
      | none => none
  | _ => none

/-- Rule 1 of `check_discrepancy`: the transcript mentions
termination/suspension and the DB flag converts to exactly 0. -/
def rule1 (tr : Option Str) (db : PyDict) : Bool :=
  transcript_mentions_termination tr && (isTerminatedVal db == some 0)

/-- The `payouts` expression of `check_discrepancy`:
`worker_db.get("payouts") or (worker_db.get("worker") or {}).get("payouts") or []`.
Raises (`.error`) when the `worker` value is truthy but not a dict. -/
def payoutsOf (db : PyDict) : Except Unit JVal :=
  let p1 := dGet db "payouts"
  if pyTruthy p1 then .ok p1
  else
    let w := dGet db "worker"
    match (if pyTruthy w then w else .obj []) with
    | .obj fs =>
        let p2 := dGet fs "payouts"
        if pyTruthy p2 then .ok p2 else .ok (.arr [])
    | _ => .error ()

/-- Rule 2 of `check_discrepancy` after the `payouts` expression was
evaluated: an extracted amount, a non-empty payout list, and the first
payout's amount (default 0) a convertible number more than 100 away.
Conversion or attribute failures inside the rule are swallowed by its
try/except. -/
def rule2Fires (claimed : Option Rat) (payouts : JVal) : Bool :=
  match claimed, payouts with
  | some c, .arr (h :: _) =>
      match h with
      | .obj fs =>
          match pyFloat (dGetD fs "amount" (.num 0)) with
          | some la => decide (|la - c| > 100)
          | none => false
      | _ => false
  | _, _ => false

/-- Rule 3's trigger phrases. -/
def noNoticeKeywords : List Str :=
  ([ "no notice", "sudden", "immediately", "without notice" ]).map String.toList

/-- Rule 3 of `check_discrepancy`: an abrupt/no-notice phrase while
`term` is a dict with a truthy `termination_reason_text`. -/
def rule3 (tr : Option Str) (db : PyDict) : Bool :=
  let t := lowerStr (tr.getD [])
  (noNoticeKeywords.any (fun k => strContains t k)) &&
    (match termChain db with
     | .obj fs => pyTruthy (dGet fs "termination_reason_text")
     | _ => false)

/-- Rule 4's trigger phrases. -/
def notPaidKeywords : List Str :=
  ([ "not paid", "didn't get paid", "unpaid", "not received",
     "not paid to me" ]).map String.toList

/-- Python `"payment_compliant" in o` over an arbitrary order value: a
key test on a dict, a substring test on a str, an element test on a
list; a membership test on anything else raises. -/
def pyInPaymentCompliant : JVal → Except Unit Bool
  | .obj fs => .ok (hasKey fs "payment_compliant")
  | .str s => .ok (strContains s.toList ("payment_compliant").toList)
  | .arr xs =>
      .ok (xs.any (fun x => match x with
        | .str s => decide (s = "payment_compliant")
        | _ => false))
  | _ => .error ()

/-- Python `v in (1, True, "1")` (note `True == 1`). -/
def isCompliantVal : JVal → Bool
  | .num q => decide (q = 1)
  | .boolv b => b
  | .str s => decide (s = "1")
  | _ => false

/-- Python `v in (0, "0", False)` (note `False == 0`). -/
def isNonCompliantVal : JVal → Bool
  | .num q => decide (q = 0)
  | .boolv b => !b
  | .str s => decide (s = "0")
  | _ => false

/-- `any("payment_compliant" in o for o in orders)`: short-circuits at
the first flagged order; a raise before that propagates. -/
def anyFlagged : List JVal → Except Unit Bool
  | [] => .ok false
  | o :: rest => do
      let b ← pyInPaymentCompliant o
      if b then .ok true else anyFlagged rest

/-- `all(o.get("payment_compliant") in (1, True, "1") for o in orders if
"payment_compliant" in o)`: short-circuits at the first non-compliant
flagged order.  `o.get` on a non-dict that passed the `in` filter (a str
containing the key, a list containing it) raises, uncaught here. -/
def allCompliant : List JVal → Except Unit Bool
  | [] => .ok true
  | o :: rest => do
      let b ← pyInPaymentCompliant o
      if !b then allCompliant rest
      else
        match o with
        | .obj fs =>
            if isCompliantVal (dGet fs "payment_compliant") then allCompliant rest
            else .ok false
        | _ => .error ()

/-- Rule 4 of `check_discrepancy`: a "not paid" phrase while the record's
order list is non-empty, has payment flags, and every flagged order is
compliant. -/
def rule4 (tr : Option Str) (db : PyDict) : Except Unit Bool :=
  let t := lowerStr (tr.getD [])
  if !(notPaidKeywords.any (fun k => strContains t k)) then .ok false
  else
    match (let ov := dGet db "orders"; if pyTruthy ov then ov else .arr []) with
    | .arr (o :: os) => do
        let hasFlags ← anyFlagged (o :: os)
        if hasFlags then allCompliant (o :: os) else .ok false
    | _ => .ok false

/-- app.py `check_discrepancy`: rules 1-4 in order, each returning True
early; the `payouts` expression is evaluated (and can raise) once rule 1
has not fired. -/
def check_discrepancy (tr : Option Str) (db : PyDict) : Except Unit Bool :=
  if rule1 tr db then .ok true
  else do
    let p ← payoutsOf db
    if rule2Fires (extract_number_from_text tr) p then .ok true
    else if rule3 tr db then .ok true
    else rule4 tr db

/-- The follow-up keyword list of the relevance extractor's payout gate. -/
def payoutGateKeywords : List Str :=
  ([ "payout", "paid", "unpaid", "payment" ]).map String.toList

/-- The follow-up keyword list of the relevance extractor's rating gate. -/
def ratingGateKeywords : List Str :=
  ([ "rating", "algorithm", "algo", "penalty", "deduct", "deduction" ]).map
    String.toList

/-- The top-level identity fields the extractor synthesizes a worker
sub-record from. -/
def workerFieldNames : List String :=
  [ "name", "phone", "email", "joined_at", "current_status" ]

/-- The filter of the long-order-list comprehension: a non-compliant
payment flag, or a `reduction_reason` or `payout_amount` key.  `o.get`
on a non-dict element raises. -/
def orderFilterPred : JVal → Except Unit Bool
  | .obj fs =>
      .ok (isNonCompliantVal (dGet fs "payment_compliant") ||
           hasKey fs "reduction_reason" || hasKey fs "payout_amount")
  | _ => .error ()

/-- The list comprehension over the order list, element by element. -/
def filterOrders : List JVal → Except Unit (List JVal)
  | [] => .ok []
  | o :: rest => do
      let b ← orderFilterPred o
      let r ← filterOrders rest
      .ok (if b then o :: r else r)

/-- The recurring statement shape `if "k" in worker_db:
relevant["k"] = worker_db["k"]`. -/
def dCopyKey (db : PyDict) (r : PyDict) (k : String) : PyDict :=
  if hasKey db k then dSet r k (dGet db k) else r

/-- Gate of the extractor's termination block. -/
def termGate (tr : Option Str) : Bool :=
  transcript_mentions_termination tr ||
    strContains (lowerStr (tr.getD [])) ("termination").toList ||
    strContains (lowerStr (tr.getD [])) ("appeal").toList

/-- Termination block of `get_relevant_db_fields`. -/
def relevantTermPart (tr : Option Str) (db : PyDict) (r : PyDict) : PyDict :=
  if termGate tr then
    dCopyKey db (dCopyKey db r "termination_status") "termination_logs"
  else r

/-- Gate of the extractor's payout block. -/
def payGate (tr : Option Str) : Bool :=
  transcript_mentions_payout_or_paid tr ||
    payoutGateKeywords.any (fun k => strContains (lowerStr (tr.getD [])) k)

/-- The value stored under "orders" by the payout block: the list passes
whole when 10 or fewer items (or not a list at all), else through the
filter with its first-10 fallback. -/
def ordersFilterBranch (a : PyDict) : JVal → Except Unit PyDict
  | .arr xs =>
      if xs.length > 10 then do
        let filtered ← filterOrders xs
        .ok (dSet a "orders"
          (if filtered.isEmpty then .arr (xs.take 10) else .arr filtered))
      else .ok (dSet a "orders" (.arr xs))
  | ov => .ok (dSet a "orders" ov)

/-- The `if "orders" in worker_db` body of the payout block. -/
def ordersPayoutStep (db : PyDict) (a : PyDict) : Except Unit PyDict :=
  if hasKey db "orders" then ordersFilterBranch a (dGet db "orders")
  else .ok a

/-- Payout block of `get_relevant_db_fields`: payouts, and orders with
the long-list filter (falling back to the first 10 when the filter is
empty). -/
def relevantPayoutPart (tr : Option Str) (db : PyDict) (r : PyDict) :
    Except Unit PyDict :=
  if payGate tr then ordersPayoutStep db (dCopyKey db r "payouts")
  else .ok r

/-- Gate of the extractor's rating/algorithm block. -/
def rateGate (tr : Option Str) : Bool :=
  transcript_mentions_rating_or_algo tr ||
    ratingGateKeywords.any (fun k => strContains (lowerStr (tr.getD [])) k)

/-- Rating/algorithm block of `get_relevant_db_fields` (`setdefault`
keeps an orders entry the payout block already placed). -/
def relevantRatingPart (tr : Option Str) (db : PyDict) (r : PyDict) : PyDict :=
  if rateGate tr then
    if hasKey db "orders" then
      dSetdefault (dCopyKey db r "penalties") "orders" (dGet db "orders")
    else dCopyKey db r "penalties"
  else r

/-- The worker sub-record the else-branch builds key by key: each present
top-level identity field, in field order. -/
def synthWorker (db : PyDict) : List (String × JVal) :=
  workerFieldNames.filterMap (fun k => (dLookup db k).map (fun v => (k, v)))

/-- Worker-identity block of `get_relevant_db_fields`: the nested worker
object if present, else a sub-record of whichever top-level identity
fields exist (none present means no "worker" key at all). -/
def relevantWorkerPart (db : PyDict) (r : PyDict) : PyDict :=
  if hasKey db "worker" then dSetdefault r "worker" (dGet db "worker")
  else if (synthWorker db).isEmpty then r
  else dSet r "worker" (.obj (synthWorker db))

/-- Review block of `get_relevant_db_fields`. -/
def relevantReviewPart (tr : Option Str) (db : PyDict) (r : PyDict) : PyDict :=
  if strContains (lowerStr (tr.getD [])) ("review").toList ||
      transcript_mentions_rating_or_algo tr then
    dCopyKey db r "review_counts"
  else r

/-- app.py `get_relevant_db_fields`: the five blocks in source order over
an initially empty dict. -/
def get_relevant_db_fields (tr : Option Str) (db : PyDict) :
    Except Unit PyDict := do
  let r2 ← relevantPayoutPart tr db (relevantTermPart tr db [])
  .ok (relevantReviewPart tr db (relevantWorkerPart db (relevantRatingPart tr db r2)))

/-- The trigger-word list of `fallback_local_decision`. -/
def fallbackTriggers : List Str :=
  ([ "suspend", "suspended", "terminated", "termination", "no notice",
     "deduct", "penalty", "reduced", "unpaid", "not paid", "appeal" ]).map
    String.toList

/-- The fallback's `any(w in t for w in triggers)` condition. -/
def hasTriggerWord (tr : Str) : Bool :=
  fallbackTriggers.any (fun w => strContains (lowerStr tr) w)

/-- The fallback's `isinstance(term, dict) and term.get("is_terminated")
in (0, "0", False)` condition, with
`term = worker_db.get("termination_status") or {}`. -/
def fallbackTermFalse (db : PyDict) : Bool :=
  match (if pyTruthy (dGet db "termination_status") then
           dGet db "termination_status" else .obj []) with
  | .obj fs => isNonCompliantVal (dGet fs "is_terminated")
  | _ => false

/-- app.py `fallback_local_decision`: trigger words make the complaint
valid unless `termination_status.is_terminated` is explicitly falsy-zero
(`in (0, "0", False)`); no trigger word means invalid. -/
def fallback_local_decision (tr : Str) (db : PyDict) : String :=
  if hasTriggerWord tr then
    if fallbackTermFalse db then "Invalid complaint" else "Valid complaint"
  else "Invalid complaint"

/-- Outcome of `call_gemini_api` as the `/seek` handler sees it: a
decision string (`ok` True) or an error message. -/
inductive GemResult where
  | ok : String → GemResult
  | err : String → GemResult

/-- The decision parse of the `/seek` handler for a successful classifier
call: strip, then case-insensitive prefix tests for "valid"/"invalid",
then substring tests ("invalid" first), else the local fallback. -/
def decide_from_gemini (dec : String) (fbTr : Str) (db : PyDict) : String :=
  if ("valid").toList.isPrefixOf (lowerStr (stripStr dec.toList)) then
    "Valid complaint"
  else if ("invalid").toList.isPrefixOf (lowerStr (stripStr dec.toList)) then
    "Invalid complaint"
  else if strContains (lowerStr (stripStr dec.toList)) ("invalid").toList then
    "Invalid complaint"
  else if strContains (lowerStr (stripStr dec.toList)) ("valid").toList then
    "Valid complaint"
  else fallback_local_decision fbTr db

/-- The JSON body `/seek` returns on success. `geminiCalled` records
whether control reached the classifier call (step 4); on the discrepancy
short-circuit it never does. -/
structure SeekResponse where
  final_decision : String
  relevant_db : PyDict
  geminiCalled : Bool
  gemini_error : Option String

/-- app.py `seek_post` after the worker record was fetched and the audit
file saved: the discrepancy short-circuit, else the classifier result
parse, else the local fallback.  `.error ()` is an uncaught exception
(no JSON response). -/
def seek_post (tr : Option Str) (db : PyDict) (gemini : GemResult) :
    Except Unit SeekResponse := do
  let d ← check_discrepancy tr db
  if d then do
    let rel ← get_relevant_db_fields tr db
    .ok ⟨"Invalid complaint", rel, false, none⟩
  else
    match gemini with
    | .ok dec => do
        let fin := decide_from_gemini dec (tr.getD []) db
        let rel ← get_relevant_db_fields tr db
        .ok ⟨fin, rel, true, none⟩
    | .err e => do
        let fin := fallback_local_decision (tr.getD []) db
        let rel ← get_relevant_db_fields tr db
        .ok ⟨fin, rel, true, some e⟩

end Rakshak

namespace Sim

open Rakshak (JVal)

/-
zomato_simulator/backend: the SQLite tables of utils.py as lists of typed
rows.  Column values other than the worker/order keys are arbitrary SQLite
values (`JVal`, with `JVal.null` for NULL).  The SQL ORDER BY clauses of
get_worker_summary only permute the returned lists and every property
below is invariant under permutation, so the model returns rows in table
order.
-/

/-- A row of the `workers` table (columns as inserted by `add_worker`). -/
structure WorkerRow where
  worker_id : String
  name : JVal
  phone : JVal
  email : JVal
  joined_at : JVal
  current_status : JVal
  notes : JVal

/-- A row of the `orders` table. -/
structure OrderRow where
  order_id : String
  worker_id : String
  order_date : JVal
  distance_km : JVal
  duration_min : JVal
  payout_amount : JVal
  status : JVal
  flags : JVal
  payment_compliant : JVal
  reduction_reason : JVal

/-- A row of the `termination_status` table. -/
structure TermStatusRow where
  worker_id : String
  is_terminated : JVal
  terminated_at : JVal
  termination_reason_code : JVal
  termination_reason_text : JVal
  appeal_allowed : JVal
  appeal_deadline : JVal

/-- A row of the `termination_logs` table. -/
structure TermLogRow where
  log_id : Nat
  worker_id : String
  logged_at : JVal
  reason_code : JVal
  reason_text : JVal
  related_order_id : JVal
  evidence : JVal
  severity : JVal
  action_taken : JVal
  recorded_by : JVal

/-- A row of the `review_counts` table. -/
structure ReviewRow where
  worker_id : String
  count_5 : JVal
  count_4 : JVal
  count_3 : JVal
  count_2 : JVal
  count_1 : JVal
  total_reviews : JVal

/-- The five tables of gigworkers.db. -/
structure SimDB where
  workers : List WorkerRow
  orders : List OrderRow
  termination_status : List TermStatusRow
  termination_logs : List TermLogRow
  review_counts : List ReviewRow

/-- utils.py `add_worker`: the INSERT succeeds unless a row with the same
`worker_id` (the table's unique key, per the function's contract "False
if worker_id exists") is present; a failed insert commits nothing. -/
def add_worker (w : WorkerRow) (db : SimDB) : Bool × SimDB :=
  if db.workers.any (fun r => r.worker_id == w.worker_id) then (false, db)
  else (true, { db with workers := db.workers ++ [w] })

/-- utils.py `remove_worker`: delete the dependent rows of all four child
tables, then the worker row; the returned flag is the worker delete's
rowcount. -/
def remove_worker (wid : String) (db : SimDB) : Bool × SimDB :=
  (db.workers.any (fun r => r.worker_id == wid),
   { workers := db.workers.filter (fun r => !(r.worker_id == wid)),
     orders := db.orders.filter (fun r => !(r.worker_id == wid)),
     termination_status :=
       db.termination_status.filter (fun r => !(r.worker_id == wid)),
     termination_logs :=
       db.termination_logs.filter (fun r => !(r.worker_id == wid)),
     review_counts := db.review_counts.filter (fun r => !(r.worker_id == wid)) })

/-- utils.py `get_worker_summary`: the worker row and the dependent rows
keyed by the identifier (single-row tables via `fetchone`). -/
structure WorkerSummary where
  worker : Option WorkerRow
  orders : List OrderRow
  termination_status : Option TermStatusRow
  termination_logs : List TermLogRow
  review_counts : Option ReviewRow

/-- utils.py `get_worker_summary`. -/
def get_worker_summary (wid : String) (db : SimDB) : WorkerSummary :=
  { worker := db.workers.find? (fun r => r.worker_id == wid),
    orders := db.orders.filter (fun r => r.worker_id == wid),
    termination_status :=
      db.termination_status.find? (fun r => r.worker_id == wid),
    termination_logs :=
      db.termination_logs.filter (fun r => r.worker_id == wid),
    review_counts := db.review_counts.find? (fun r => r.worker_id == wid) }

/-- app.py `api_get_worker_summary`: 404 with no body when the worker row
is absent, else 200 with the summary. -/
def api_get_worker_summary (wid : String) (db : SimDB) :
    Nat × Option WorkerSummary :=
  if (get_worker_summary wid db).worker.isNone then (404, none)
  else (200, some (get_worker_summary wid db))

/-- app.py `api_add_worker` for a payload that does carry a `worker_id`
(the 400 path for a missing one is outside this typed model): 201 on
success, 409 on the uniqueness conflict. -/
def api_add_worker (w : WorkerRow) (db : SimDB) : Nat × SimDB :=
  if (add_worker w db).1 then (201, (add_worker w db).2)
  else (409, (add_worker w db).2)

/-- A concrete worker row for the conflict scenario. -/
def w0 : WorkerRow :=
  ⟨"W1", .str "Asha", .null, .null, .null, .null, .null⟩

/-- A database already holding `w0`. -/
def db0 : SimDB := ⟨[w0], [], [], [], []⟩

end Sim

namespace Rakshak

/-- Whether an order dict carries a non-compliant payment flag (the
first disjunct of the long-order-list filter). -/
def ordNonCompliant : JVal → Bool
  | .obj fs => isNonCompliantVal (dGet fs "payment_compliant")
  | _ => false

/-- An order on which the long-list filter succeeds and decides by the
payment flag alone (so no `reduction_reason`/`payout_amount` key lets a
compliant order through). -/
def predFaithful (o : JVal) : Bool :=
  match orderFilterPred o with
  | .ok b => b == ordNonCompliant o
  | .error _ => false

/-- Length of a JSON list, 0 otherwise (used to separate unequal lists). -/
def jvalLen : JVal → Nat
  | .arr l => l.length
  | _ => 0

/-- Concrete fallback scenario of the spec: the suspension transcript. -/
def suspTr : Str := ("I was suspended without reason").toList

/-- Concrete fallback scenario of the spec: a record with
`is_terminated = true`. -/
def suspDb : PyDict :=
  [("termination_status", JVal.obj [("is_terminated", JVal.boolv true)])]

/-- A payout-keyword transcript for the order-filter scenarios. -/
def cexTr : Str := ("payment issue").toList

/-- Eleven orders, exactly two with a non-compliant payment flag, and one
compliant order carrying a `reduction_reason` key. -/
def cexOrders : List JVal :=
  [ .obj [("order_id", .num 1), ("payment_compliant", .num 0)],
    .obj [("order_id", .num 2), ("payment_compliant", .num 0)],
    .obj [("order_id", .num 3), ("payment_compliant", .num 1),
          ("reduction_reason", .str "late delivery")],
    .obj [("order_id", .num 4), ("payment_compliant", .num 1)],
    .obj [("order_id", .num 5), ("payment_compliant", .num 1)],
    .obj [("order_id", .num 6), ("payment_compliant", .num 1)],
    .obj [("order_id", .num 7), ("payment_compliant", .num 1)],
    .obj [("order_id", .num 8), ("payment_compliant", .num 1)],
    .obj [("order_id", .num 9), ("payment_compliant", .num 1)],
    .obj [("order_id", .num 10), ("payment_compliant", .num 1)],
    .obj [("order_id", .num 11), ("payment_compliant", .num 1)] ]

/-- A worker record holding only `cexOrders`. -/
def cexDb : PyDict := [("orders", JVal.arr cexOrders)]

/-- Eleven orders, exactly two non-compliant, no other filter-relevant
key anywhere. -/
def wOrders : List JVal :=
  [ .obj [("order_id", .num 1), ("payment_compliant", .num 0)],
    .obj [("order_id", .num 2), ("payment_compliant", .num 0)],
    .obj [("order_id", .num 3), ("payment_compliant", .num 1)],
    .obj [("order_id", .num 4), ("payment_compliant", .num 1)],
    .obj [("order_id", .num 5), ("payment_compliant", .num 1)],
    .obj [("order_id", .num 6), ("payment_compliant", .num 1)],
    .obj [("order_id", .num 7), ("payment_compliant", .num 1)],
    .obj [("order_id", .num 8), ("payment_compliant", .num 1)],
    .obj [("order_id", .num 9), ("payment_compliant", .num 1)],
    .obj [("order_id", .num 10), ("payment_compliant", .num 1)],
    .obj [("order_id", .num 11), ("payment_compliant", .num 1)] ]

/-- A worker record holding only `wOrders`. -/
def wDb : PyDict := [("orders", JVal.arr wOrders)]

theorem exBind_ok {α β : Type} (a : α) (f : α → Except Unit β) :
    (Except.ok a >>= f) = f a := rfl

theorem exBind_error {α β : Type} (f : α → Except Unit β) :
    ((Except.error () : Except Unit α) >>= f) = Except.error () := rfl

theorem isPrefixOf_trans {l1 l2 l3 : List Char}
    (h1 : l1.isPrefixOf l2 = true) (h2 : l2.isPrefixOf l3 = true) :
    l1.isPrefixOf l3 = true := by
  rw [List.isPrefixOf_iff_prefix] at h1 h2 ⊢
  exact h1.trans h2

theorem strContains_of_prefix {t n1 n2 : Str}
    (hp : n1.isPrefixOf n2 = true) (h : strContains t n2 = true) :
    strContains t n1 = true := by
  unfold strContains at h ⊢
  rw [List.any_eq_true] at h ⊢
  obtain ⟨suf, hsuf, hpre⟩ := h
  exact ⟨suf, hsuf, isPrefixOf_trans hp hpre⟩

/-- C1: on a /seek request where the discrepancy detector returns true on
the transcript and the fetched worker record, the response is exactly
"Invalid complaint" together with the relevance-extracted fields, for
every possible classifier outcome, and the classifier is never called. -/
theorem seek_discrepancy_short_circuit (tr : Option Str) (db : PyDict)
    (g : GemResult) (h : check_discrepancy tr db = .ok true) :
    seek_post tr db g =
      (get_relevant_db_fields tr db).map
        (fun rel => ⟨"Invalid complaint", rel, false, none⟩) := by
  unfold seek_post
  rw [h, exBind_ok, if_pos rfl]
  cases hrel : get_relevant_db_fields tr db with
  | ok rel => rw [exBind_ok]; rfl
  | error e => rfl

theorem seek_discrepancy_short_circuit_witness :
    check_discrepancy (some (("I was terminated").toList))
      [("termination_status", JVal.obj [("is_terminated", JVal.num 0)])] = .ok true ∧
    seek_post (some (("I was terminated").toList))
      [("termination_status", JVal.obj [("is_terminated", JVal.num 0)])]
      (.ok "Valid complaint") =
      (get_relevant_db_fields (some (("I was terminated").toList))
        [("termination_status", JVal.obj [("is_terminated", JVal.num 0)])]).map
        (fun rel => ⟨"Invalid complaint", rel, false, none⟩) :=
  ⟨rfl, seek_discrepancy_short_circuit _ _ _ rfl⟩

/-- C4: a transcript containing "terminated" together with a termination
status whose `is_terminated` field is explicitly 0 or False makes
`check_discrepancy` return true. -/
theorem check_discrepancy_terminated_contradiction
    (tr : Str) (db fs : PyDict) (v : JVal)
    (ht : strContains (lowerStr tr) (("terminated").toList) = true)
    (hdb : dLookup db "termination_status" = some (.obj fs))
    (hv : dLookup fs "is_terminated" = some v)
    (hval : v = .num 0 ∨ v = .boolv false) :
    check_discrepancy (some tr) db = .ok true := by
  have hment : transcript_mentions_termination (some tr) = true := by
    unfold transcript_mentions_termination
    rw [List.any_eq_true]
    exact ⟨("terminate").toList, by decide,
      strContains_of_prefix (by decide) ht⟩
  have hfs : fs.isEmpty = false := by
    cases fs with
    | nil => simp [dLookup] at hv
    | cons a l => rfl
  have hterm : termChain db = .obj fs := by
    unfold termChain dGet
    rw [hdb]
    simp [pyTruthy, hfs]
  have hit : isTerminatedVal db = some 0 := by
    unfold isTerminatedVal
    rw [hterm]
    show (match dLookup fs "is_terminated" with
          | some v => pyToInt v
          | none => none) = some 0
    rw [hv]
    rcases hval with rfl | rfl <;> simp [pyToInt, ratTrunc]
  have hr1 : rule1 (some tr) db = true := by
    unfold rule1
    rw [hment, hit]
    rfl
  unfold check_discrepancy
  rw [hr1, if_pos rfl]

theorem check_discrepancy_terminated_contradiction_witness :
    strContains (lowerStr (("You are Terminated now").toList))
      (("terminated").toList) = true ∧
    check_discrepancy (some (("You are Terminated now").toList))
      [("termination_status", JVal.obj [("is_terminated", JVal.boolv false)])] =
      .ok true :=
  ⟨by decide,
   check_discrepancy_terminated_contradiction _ _ _ _ (by decide) rfl rfl
     (Or.inr rfl)⟩

/-- C5: when the amount regex finds nothing in the transcript, the payout
rule (rule 2) never fires, and any true verdict of `check_discrepancy`
comes from rule 1, rule 3 or rule 4 alone, whatever the payouts. -/
theorem rule2_requires_extracted_amount (tr : Option Str) (db : PyDict)
    (p : JVal) (h : extract_number_from_text tr = none) :
    rule2Fires (extract_number_from_text tr) p = false ∧
    (check_discrepancy tr db = .ok true →
      rule1 tr db = true ∨ rule3 tr db = true ∨ rule4 tr db = .ok true) := by
  have hr2 : ∀ q, rule2Fires none q = false := fun q => by cases q <;> rfl
  refine ⟨by rw [h]; exact hr2 p, ?_⟩
  intro hc
  unfold check_discrepancy at hc
  cases h1 : rule1 tr db with
  | true => exact Or.inl rfl
  | false =>
    rw [h1, if_neg (by simp)] at hc
    cases hp : payoutsOf db with
    | error e => rw [hp, exBind_error] at hc; exact Except.noConfusion hc
    | ok pv =>
      rw [hp, exBind_ok, h, hr2 pv, if_neg (by simp)] at hc
      cases h3 : rule3 tr db with
      | true => exact Or.inr (Or.inl rfl)
      | false =>
        rw [h3, if_neg (by simp)] at hc
        exact Or.inr (Or.inr hc)

theorem rule2_requires_extracted_amount_witness :
    extract_number_from_text (some (("paid me nothing at all").toList)) = none ∧
    rule2Fires (extract_number_from_text
        (some (("paid me nothing at all").toList)))
      (JVal.arr [JVal.obj [("amount", JVal.num 99999)]]) = false :=
  ⟨rfl,
   (rule2_requires_extracted_amount (some (("paid me nothing at all").toList))
      [] (JVal.arr [JVal.obj [("amount", JVal.num 99999)]]) rfl).1⟩

/-- Parsing the classifier decision "Invalid complaint." resolves to
"Invalid complaint" whatever the fallback inputs: the stripped lowercased
text starts with "invalid". -/
theorem decide_from_gemini_invalid_punct (fbTr : Str) (db : PyDict) :
    decide_from_gemini "Invalid complaint." fbTr db = "Invalid complaint" := rfl

/-- C6: with no local discrepancy, a successful classifier call returning
exactly "Invalid complaint." (trailing punctuation) yields the final
decision "Invalid complaint". -/
theorem seek_invalid_punctuated_decision (tr : Option Str) (db : PyDict)
    (resp : SeekResponse)
    (hnd : check_discrepancy tr db = .ok false)
    (h : seek_post tr db (.ok "Invalid complaint.") = .ok resp) :
    resp.final_decision = "Invalid complaint" := by
  unfold seek_post at h
  rw [hnd, exBind_ok, if_neg (by simp)] at h
  have h' : (do
      let rel ← get_relevant_db_fields tr db
      (.ok ⟨decide_from_gemini "Invalid complaint." (tr.getD []) db, rel,
        true, none⟩ : Except Unit SeekResponse)) = .ok resp := h
  cases hrel : get_relevant_db_fields tr db with
  | error e => rw [hrel, exBind_error] at h'; exact Except.noConfusion h'
  | ok rel =>
    rw [hrel, exBind_ok] at h'
    injection h' with h''
    rw [← h'']
    exact decide_from_gemini_invalid_punct (tr.getD []) db

theorem seek_invalid_punctuated_decision_witness :
    check_discrepancy none [] = .ok false ∧
    seek_post none [] (.ok "Invalid complaint.") =
      .ok ⟨"Invalid complaint", [], true, none⟩ ∧
    ("Invalid complaint" : String) = "Invalid complaint" :=
  ⟨rfl, rfl, seek_invalid_punctuated_decision none [] ⟨"Invalid complaint", [], true, none⟩ rfl rfl⟩

/-- The fallback heuristic in the spec's flat form: "Valid complaint"
exactly when a trigger word is present and the termination flag is not
explicitly false. -/
theorem fallback_local_decision_eq (tr : Str) (db : PyDict) :
    fallback_local_decision tr db =
      (if hasTriggerWord tr && !fallbackTermFalse db then "Valid complaint"
       else "Invalid complaint") := by
  unfold fallback_local_decision
  cases htr : hasTriggerWord tr <;> cases htf : fallbackTermFalse db <;> simp

/-- C7: with no local discrepancy and the classifier unavailable or
erroring, /seek still answers, deciding by the local fallback: "Valid
complaint" exactly when a trigger word is present and the termination
flag is not explicitly false, "Invalid complaint" otherwise, alongside
the relevance-extracted fields. -/
theorem seek_fallback_on_gemini_error (tr : Option Str) (db : PyDict)
    (e : String) (hnd : check_discrepancy tr db = .ok false) :
    seek_post tr db (.err e) =
      (get_relevant_db_fields tr db).map
        (fun rel =>
          ⟨(if hasTriggerWord (tr.getD []) && !fallbackTermFalse db then
              "Valid complaint" else "Invalid complaint"), rel, true, some e⟩) := by
  unfold seek_post
  rw [hnd, exBind_ok, if_neg (by simp)]
  show (do
      let rel ← get_relevant_db_fields tr db
      (.ok ⟨fallback_local_decision (tr.getD []) db, rel, true, some e⟩ :
        Except Unit SeekResponse)) = _
  rw [fallback_local_decision_eq]
  cases hrel : get_relevant_db_fields tr db with
  | ok rel => rw [exBind_ok]; rfl
  | error e2 => rfl

theorem seek_fallback_on_gemini_error_witness :
    check_discrepancy (some suspTr) suspDb = .ok false ∧
    seek_post (some suspTr) suspDb (.err "gemini unreachable") =
      .ok ⟨"Valid complaint",
        [("termination_status", JVal.obj [("is_terminated", JVal.boolv true)])],
        true, some "gemini unreachable"⟩ := by
  refine ⟨rfl, ?_⟩
  rw [seek_fallback_on_gemini_error (some suspTr) suspDb "gemini unreachable" rfl]
  rfl

theorem fallback_decision_cases (tr : Str) (db : PyDict) :
    fallback_local_decision tr db = "Valid complaint" ∨
    fallback_local_decision tr db = "Invalid complaint" := by
  unfold fallback_local_decision
  split
  · split
    · exact Or.inr rfl
    · exact Or.inl rfl
  · exact Or.inr rfl

theorem decide_from_gemini_cases (dec : String) (tr : Str) (db : PyDict) :
    decide_from_gemini dec tr db = "Valid complaint" ∨
    decide_from_gemini dec tr db = "Invalid complaint" := by
  unfold decide_from_gemini
  split
  · exact Or.inl rfl
  · split
    · exact Or.inr rfl
    · split
      · exact Or.inr rfl
      · split
        · exact Or.inl rfl
        · exact fallback_decision_cases tr db

/-- C10: every successful /seek response decides exactly "Valid
complaint" or "Invalid complaint", on the short-circuit path, the
classifier-parse path and the fallback path alike. -/
theorem seek_final_decision_binary (tr : Option Str) (db : PyDict)
    (g : GemResult) (resp : SeekResponse)
    (h : seek_post tr db g = .ok resp) :
    resp.final_decision = "Valid complaint" ∨
    resp.final_decision = "Invalid complaint" := by
  unfold seek_post at h
  cases hd : check_discrepancy tr db with
  | error e => rw [hd, exBind_error] at h; exact Except.noConfusion h
  | ok d =>
    rw [hd, exBind_ok] at h
    cases d with
    | true =>
      rw [if_pos rfl] at h
      cases hrel : get_relevant_db_fields tr db with
      | error e => rw [hrel, exBind_error] at h; exact Except.noConfusion h
      | ok rel =>
        rw [hrel, exBind_ok] at h
        injection h with h'
        rw [← h']
        exact Or.inr rfl
    | false =>
      rw [if_neg (by simp)] at h
      cases g with
      | ok dec =>
        have h' : (do
            let rel ← get_relevant_db_fields tr db
            (.ok ⟨decide_from_gemini dec (tr.getD []) db, rel, true, none⟩ :
              Except Unit SeekResponse)) = .ok resp := h
        cases hrel : get_relevant_db_fields tr db with
        | error e => rw [hrel, exBind_error] at h'; exact Except.noConfusion h'
        | ok rel =>
          rw [hrel, exBind_ok] at h'
          injection h' with h''
          rw [← h'']
          exact decide_from_gemini_cases dec (tr.getD []) db
      | err e =>
        have h' : (do
            let rel ← get_relevant_db_fields tr db
            (.ok ⟨fallback_local_decision (tr.getD []) db, rel, true, some e⟩ :
              Except Unit SeekResponse)) = .ok resp := h
        cases hrel : get_relevant_db_fields tr db with
        | error e2 => rw [hrel, exBind_error] at h'; exact Except.noConfusion h'
        | ok rel =>
          rw [hrel, exBind_ok] at h'
          injection h' with h''
          rw [← h'']
          exact fallback_decision_cases (tr.getD []) db

theorem dLookup_dSet_self (d : PyDict) (k : String) (v : JVal) :
    dLookup (dSet d k v) k = some v := by
  induction d with
  | nil => simp [dSet, dLookup]
  | cons a rest ih =>
    obtain ⟨k', v'⟩ := a
    by_cases h : k' = k <;> simp [dSet, dLookup, h, ih]

theorem dLookup_dSet_ne (d : PyDict) {k k' : String} (v : JVal)
    (h : k' ≠ k) : dLookup (dSet d k' v) k = dLookup d k := by
  induction d with
  | nil => simp [dSet, dLookup, h]
  | cons a rest ih =>
    obtain ⟨k2, v2⟩ := a
    by_cases h2 : k2 = k' <;> by_cases h3 : k2 = k <;>
      simp_all [dSet, dLookup]

theorem dLookup_append_last_ne (d : PyDict) {k k' : String} (v : JVal)
    (h : k' ≠ k) : dLookup (d ++ [(k', v)]) k = dLookup d k := by
  induction d with
  | nil => simp [dLookup, h]
  | cons a rest ih =>
    obtain ⟨k2, v2⟩ := a
    by_cases h2 : k2 = k <;> simp [dLookup, h2, ih]

theorem dLookup_append_last_self (d : PyDict) (k : String) (v : JVal)
    (h : dLookup d k = none) : dLookup (d ++ [(k, v)]) k = some v := by
  induction d with
  | nil => simp [dLookup]
  | cons a rest ih =>
    obtain ⟨k2, v2⟩ := a
    by_cases h2 : k2 = k <;> simp_all [dLookup]

theorem dLookup_dSetdefault_ne (d : PyDict) {k k' : String} (v : JVal)
    (h : k' ≠ k) : dLookup (dSetdefault d k' v) k = dLookup d k := by
  unfold dSetdefault
  split
  · rfl
  · exact dLookup_append_last_ne d v h

theorem dLookup_dSetdefault_of_some (d : PyDict) (k : String)
    (v v0 : JVal) (h : dLookup d k = some v0) :
    dLookup (dSetdefault d k v) k = some v0 := by
  unfold dSetdefault hasKey
  rw [h]
  simpa using h

theorem dLookup_dSetdefault_of_none (d : PyDict) (k : String) (v : JVal)
    (h : dLookup d k = none) : dLookup (dSetdefault d k v) k = some v := by
  unfold dSetdefault hasKey
  rw [h]
  simpa using dLookup_append_last_self d k v h

theorem dLookup_dCopyKey_ne (db r : PyDict) {k key : String}
    (h : key ≠ k) : dLookup (dCopyKey db r key) k = dLookup r k := by
  unfold dCopyKey
  split
  · exact dLookup_dSet_ne r _ h
  · rfl

theorem relevantTermPart_lookup_ne (tr : Option Str) (db r : PyDict)
    {k : String} (h1 : k ≠ "termination_status")
    (h2 : k ≠ "termination_logs") :
    dLookup (relevantTermPart tr db r) k = dLookup r k := by
  unfold relevantTermPart
  split
  · rw [dLookup_dCopyKey_ne db _ (Ne.symm h2),
      dLookup_dCopyKey_ne db _ (Ne.symm h1)]
  · rfl

theorem ordersFilterBranch_lookup_ne (a r' : PyDict) (ov : JVal)
    {k : String} (hstep : ordersFilterBranch a ov = .ok r')
    (h : k ≠ "orders") : dLookup r' k = dLookup a k := by
  cases ov <;>
    try (simp only [ordersFilterBranch] at hstep
         injection hstep with hstep
         rw [← hstep, dLookup_dSet_ne a _ (Ne.symm h)])
  case arr xs =>
    simp only [ordersFilterBranch] at hstep
    split at hstep
    · cases hf : filterOrders xs with
      | error e => rw [hf, exBind_error] at hstep; exact Except.noConfusion hstep
      | ok l =>
        rw [hf, exBind_ok] at hstep
        injection hstep with hstep
        rw [← hstep, dLookup_dSet_ne a _ (Ne.symm h)]
    · injection hstep with hstep
      rw [← hstep, dLookup_dSet_ne a _ (Ne.symm h)]

theorem ordersPayoutStep_lookup_ne (db a r' : PyDict) {k : String}
    (hstep : ordersPayoutStep db a = .ok r') (h : k ≠ "orders") :
    dLookup r' k = dLookup a k := by
  unfold ordersPayoutStep at hstep
  split at hstep
  · exact ordersFilterBranch_lookup_ne a r' _ hstep h
  · injection hstep with hstep
    rw [hstep]

theorem relevantPayoutPart_lookup_ne (tr : Option Str) (db r r' : PyDict)
    {k : String} (hp : relevantPayoutPart tr db r = .ok r')
    (h1 : k ≠ "payouts") (h2 : k ≠ "orders") :
    dLookup r' k = dLookup r k := by
  unfold relevantPayoutPart at hp
  split at hp
  · rw [ordersPayoutStep_lookup_ne db _ r' hp h2,
      dLookup_dCopyKey_ne db _ (Ne.symm h1)]
  · injection hp with hp
    rw [hp]

theorem relevantRatingPart_lookup_ne (tr : Option Str) (db r : PyDict)
    {k : String} (h1 : k ≠ "penalties") (h2 : k ≠ "orders") :
    dLookup (relevantRatingPart tr db r) k = dLookup r k := by
  unfold relevantRatingPart
  split
  · split
    · rw [dLookup_dSetdefault_ne _ _ (Ne.symm h2),
        dLookup_dCopyKey_ne db _ (Ne.symm h1)]
    · exact dLookup_dCopyKey_ne db _ (Ne.symm h1)
  · rfl

theorem relevantRatingPart_lookup_orders_some (tr : Option Str)
    (db r : PyDict) (v : JVal) (h : dLookup r "orders" = some v) :
    dLookup (relevantRatingPart tr db r) "orders" = some v := by
  unfold relevantRatingPart
  split
  · split
    · exact dLookup_dSetdefault_of_some _ _ _ _
        (by rw [dLookup_dCopyKey_ne db _ (by decide)]; exact h)
    · rw [dLookup_dCopyKey_ne db _ (by decide)]; exact h
  · exact h

theorem relevantWorkerPart_lookup_ne (db r : PyDict) {k : String}
    (h : k ≠ "worker") :
    dLookup (relevantWorkerPart db r) k = dLookup r k := by
  unfold relevantWorkerPart
  split
  · exact dLookup_dSetdefault_ne _ _ (Ne.symm h)
  · split
    · rfl
    · exact dLookup_dSet_ne r _ (Ne.symm h)

theorem relevantWorkerPart_lookup_worker (db r : PyDict)
    (h : dLookup r "worker" = none) :
    dLookup (relevantWorkerPart db r) "worker" =
      (if hasKey db "worker" then some (dGet db "worker")
       else if (synthWorker db).isEmpty then none
       else some (.obj (synthWorker db))) := by
  unfold relevantWorkerPart
  split
  · exact dLookup_dSetdefault_of_none _ _ _ h
  · split
    · exact h
    · exact dLookup_dSet_self _ _ _

theorem relevantReviewPart_lookup_ne (tr : Option Str) (db r : PyDict)
    {k : String} (h : k ≠ "review_counts") :
    dLookup (relevantReviewPart tr db r) k = dLookup r k := by
  unfold relevantReviewPart
  split
  · exact dLookup_dCopyKey_ne db _ (Ne.symm h)
  · rfl

theorem filterOrders_faithful (os : List JVal)
    (h : os.all predFaithful = true) :
    filterOrders os = .ok (os.filter ordNonCompliant) := by
  induction os with
  | nil => rfl
  | cons o rest ih =>
    rw [List.all_cons, Bool.and_eq_true] at h
    obtain ⟨h1, h2⟩ := h
    unfold predFaithful at h1
    unfold filterOrders
    cases hp : orderFilterPred o with
    | error e => rw [hp] at h1; exact absurd h1 (by simp)
    | ok b =>
      rw [hp] at h1
      have hb : b = ordNonCompliant o := by simpa using h1
      rw [exBind_ok, ih h2, exBind_ok, hb, List.filter_cons]

/-- C2 (amended): with a payout-keyword transcript and an 11-item order
list in which exactly 2 orders carry a non-compliant payment flag, and
in which the long-list filter decides every order by that flag alone (no
compliant order smuggled in through a reduction_reason or payout_amount
key), the extractor's orders field is exactly those 2 orders. -/
theorem relevant_orders_payout_filter (tr : Option Str) (db : PyDict)
    (os : List JVal) (r : PyDict)
    (hpay : payGate tr = true)
    (hord : dLookup db "orders" = some (.arr os))
    (hlen : os.length = 11)
    (hpred : os.all predFaithful = true)
    (hcount : (os.filter ordNonCompliant).length = 2)
    (hres : get_relevant_db_fields tr db = .ok r) :
    dLookup r "orders" = some (.arr (os.filter ordNonCompliant)) := by
  have hkey : hasKey db "orders" = true := by
    unfold hasKey; rw [hord]; rfl
  have hget : dGet db "orders" = .arr os := by
    unfold dGet; rw [hord]; rfl
  have hne : (os.filter ordNonCompliant).isEmpty = false := by
    cases hf : os.filter ordNonCompliant with
    | nil => rw [hf] at hcount; exact absurd hcount (by decide)
    | cons a l => rfl
  have hbr : ordersFilterBranch (dCopyKey db (relevantTermPart tr db []) "payouts")
      (JVal.arr os) =
      .ok (dSet (dCopyKey db (relevantTermPart tr db []) "payouts") "orders"
        (.arr (os.filter ordNonCompliant))) := by
    simp only [ordersFilterBranch]
    rw [if_pos (by rw [hlen]; decide), filterOrders_faithful os hpred,
      exBind_ok, hne]
    simp
  have hstep : ordersPayoutStep db (dCopyKey db (relevantTermPart tr db []) "payouts") =
      .ok (dSet (dCopyKey db (relevantTermPart tr db []) "payouts") "orders"
        (.arr (os.filter ordNonCompliant))) := by
    unfold ordersPayoutStep
    rw [hkey, if_pos rfl, hget]
    exact hbr
  have hpp : relevantPayoutPart tr db (relevantTermPart tr db []) =
      .ok (dSet (dCopyKey db (relevantTermPart tr db []) "payouts") "orders"
        (.arr (os.filter ordNonCompliant))) := by
    unfold relevantPayoutPart
    rw [hpay, if_pos rfl]
    exact hstep
  unfold get_relevant_db_fields at hres
  rw [hpp, exBind_ok] at hres
  injection hres with hres
  rw [← hres]
  rw [relevantReviewPart_lookup_ne tr db _ (by decide),
    relevantWorkerPart_lookup_ne db _ (by decide)]
  exact relevantRatingPart_lookup_orders_some tr db _ _
    (dLookup_dSet_self _ _ _)

theorem relevant_orders_payout_filter_witness :
    payGate (some cexTr) = true ∧
    dLookup wDb "orders" = some (.arr wOrders) ∧
    wOrders.length = 11 ∧
    wOrders.all predFaithful = true ∧
    (wOrders.filter ordNonCompliant).length = 2 ∧
    get_relevant_db_fields (some cexTr) wDb =
      .ok [("orders", JVal.arr (wOrders.take 2))] ∧
    dLookup [("orders", JVal.arr (wOrders.take 2))] "orders" =
      some (.arr (wOrders.filter ordNonCompliant)) :=
  ⟨rfl, rfl, rfl, by decide, rfl, rfl,
   relevant_orders_payout_filter (some cexTr) wDb wOrders
     [("orders", JVal.arr (wOrders.take 2))] rfl rfl rfl (by decide) rfl rfl⟩

/-- C2 as frozen is false on the code: with 11 orders of which exactly 2
are non-compliant, a compliant order carrying a `reduction_reason` key
also passes the filter, so the orders field has 3 entries, not exactly
the 2 non-compliant ones. -/
theorem relevant_orders_payout_filter_cex :
    payGate (some cexTr) = true ∧
    dLookup cexDb "orders" = some (.arr cexOrders) ∧
    cexOrders.length = 11 ∧
    (cexOrders.filter ordNonCompliant).length = 2 ∧
    get_relevant_db_fields (some cexTr) cexDb =
      .ok [("orders", JVal.arr (cexOrders.take 3))] ∧
    JVal.arr (cexOrders.take 3) ≠ JVal.arr (cexOrders.filter ordNonCompliant) := by
  refine ⟨rfl, rfl, rfl, rfl, rfl, ?_⟩
  intro h
  have h3 := congrArg jvalLen h
  exact absurd h3 (by decide)

/-- C3 (amended): the extractor's mapping has a "worker" entry exactly
when the record has a nested worker object (then that object) or at
least one of the top-level fields name/phone/email/joined_at/
current_status (then the sub-record synthesized from the present ones);
a record with neither yields no "worker" entry. -/
theorem relevant_worker_identity (tr : Option Str) (db : PyDict)
    (r : PyDict) (h : get_relevant_db_fields tr db = .ok r) :
    dLookup r "worker" =
      (if hasKey db "worker" then some (dGet db "worker")
       else if (synthWorker db).isEmpty then none
       else some (.obj (synthWorker db))) := by
  unfold get_relevant_db_fields at h
  cases hp : relevantPayoutPart tr db (relevantTermPart tr db []) with
  | error e => rw [hp, exBind_error] at h; exact Except.noConfusion h
  | ok r2 =>
    rw [hp, exBind_ok] at h
    injection h with h4
    rw [← h4]
    rw [relevantReviewPart_lookup_ne tr db _ (by decide)]
    refine (relevantWorkerPart_lookup_worker db _ ?_)
    rw [relevantRatingPart_lookup_ne tr db _ (by decide) (by decide),
      relevantPayoutPart_lookup_ne tr db _ r2 hp (by decide) (by decide),
      relevantTermPart_lookup_ne tr db _ (by decide) (by decide)]
    rfl

theorem relevant_worker_identity_witness :
    get_relevant_db_fields none [("name", JVal.str "Asha"), ("phone", JVal.str "98")] =
      .ok [("worker", JVal.obj [("name", JVal.str "Asha"), ("phone", JVal.str "98")])] ∧
    dLookup [("worker", JVal.obj [("name", JVal.str "Asha"), ("phone", JVal.str "98")])]
        "worker" =
      (if hasKey [("name", JVal.str "Asha"), ("phone", JVal.str "98")] "worker" then
         some (dGet [("name", JVal.str "Asha"), ("phone", JVal.str "98")] "worker")
       else if (synthWorker [("name", JVal.str "Asha"), ("phone", JVal.str "98")]).isEmpty then
         none
       else some (.obj (synthWorker [("name", JVal.str "Asha"), ("phone", JVal.str "98")]))) :=
  ⟨rfl,
   relevant_worker_identity none [("name", JVal.str "Asha"), ("phone", JVal.str "98")]
     [("worker", JVal.obj [("name", JVal.str "Asha"), ("phone", JVal.str "98")])] rfl⟩

/-- C3 as frozen is false on the code: on a record with neither a nested
worker object nor any of the five top-level identity fields, the
returned mapping has no "worker" entry at all. -/
theorem relevant_worker_identity_cex :
    get_relevant_db_fields none [("payouts", JVal.arr [])] =
      .ok [] ∧
    dLookup ([] : PyDict) "worker" = none := ⟨rfl, rfl⟩

theorem seek_final_decision_binary_witness :
    seek_post none [] (.err "connection refused") =
      .ok ⟨"Invalid complaint", [], true, some "connection refused"⟩ ∧
    (("Invalid complaint" : String) = "Valid complaint" ∨
     ("Invalid complaint" : String) = "Invalid complaint") :=
  ⟨rfl, seek_final_decision_binary none [] (.err "connection refused")
    ⟨"Invalid complaint", [], true, some "connection refused"⟩ rfl⟩

end Rakshak

namespace Sim

theorem filter_ne_key {α : Type} (l : List α) (f : α → String)
    (wid : String) :
    ∀ r ∈ l.filter (fun r => !(f r == wid)), f r ≠ wid := by
  intro r hr
  rw [List.mem_filter] at hr
  simpa using hr.2

theorem find?_filter_none {α : Type} (l : List α) (p : α → Bool) :
    (l.filter (fun r => !(p r))).find? p = none := by
  rw [List.find?_eq_none]
  intro x hx
  rw [List.mem_filter] at hx
  simp_all

theorem api_summary_404_of_no_worker (wid : String) (db : SimDB)
    (h : db.workers.find? (fun r => r.worker_id == wid) = none) :
    (api_get_worker_summary wid db).1 = 404 := by
  unfold api_get_worker_summary get_worker_summary
  show (if (db.workers.find? (fun r => r.worker_id == wid)).isNone = true then
      ((404, none) : Nat × Option WorkerSummary)
    else (200, some (get_worker_summary wid db))).1 = 404
  rw [h]
  rfl

/-- C8: removing a worker deletes every row keyed by that identifier in
all five tables, and the summary lookup for that identifier afterwards
reports 404. -/
theorem remove_worker_cascades (wid : String) (db : SimDB) :
    (∀ r ∈ ((remove_worker wid db).2).workers, r.worker_id ≠ wid) ∧
    (∀ r ∈ ((remove_worker wid db).2).orders, r.worker_id ≠ wid) ∧
    (∀ r ∈ ((remove_worker wid db).2).termination_status, r.worker_id ≠ wid) ∧
    (∀ r ∈ ((remove_worker wid db).2).termination_logs, r.worker_id ≠ wid) ∧
    (∀ r ∈ ((remove_worker wid db).2).review_counts, r.worker_id ≠ wid) ∧
    (api_get_worker_summary wid (remove_worker wid db).2).1 = 404 := by
  refine ⟨filter_ne_key db.workers (fun r => r.worker_id) wid,
    filter_ne_key db.orders (fun r => r.worker_id) wid,
    filter_ne_key db.termination_status (fun r => r.worker_id) wid,
    filter_ne_key db.termination_logs (fun r => r.worker_id) wid,
    filter_ne_key db.review_counts (fun r => r.worker_id) wid, ?_⟩
  exact api_summary_404_of_no_worker wid (remove_worker wid db).2
    (find?_filter_none db.workers (fun r => r.worker_id == wid))

/-- C9: inserting a worker whose identifier already exists reports a
conflict (`add_worker` returns False, surfaced as HTTP 409) and leaves
the database, its workers table included, unchanged. -/
theorem add_worker_conflict (w : WorkerRow) (db : SimDB)
    (h : ∃ r ∈ db.workers, r.worker_id = w.worker_id) :
    add_worker w db = (false, db) ∧ api_add_worker w db = (409, db) := by
  have hany : db.workers.any (fun r => r.worker_id == w.worker_id) = true := by
    rw [List.any_eq_true]
    obtain ⟨r, hr, he⟩ := h
    exact ⟨r, hr, by simpa using he⟩
  have h1 : add_worker w db = (false, db) := by
    unfold add_worker
    rw [hany, if_pos rfl]
  refine ⟨h1, ?_⟩
  unfold api_add_worker
  rw [h1]
  rfl

theorem add_worker_conflict_witness :
    (∃ r ∈ db0.workers, r.worker_id = w0.worker_id) ∧
    add_worker w0 db0 = (false, db0) ∧ api_add_worker w0 db0 = (409, db0) :=
  ⟨⟨w0, by simp [db0], rfl⟩,
   add_worker_conflict w0 db0 ⟨w0, by simp [db0], rfl⟩⟩

end Sim
